import Mathlib

/-!
Verification of the dungeon-masters-companion turn engine
(src/orchestrator/...) against its natural-language specification.

The Python source is shallowly embedded: mutable objects become explicit
state values, methods become functions from state to state, a Python
exception becomes an `Except.error` (or an `Option` error component paired
with the state the object had at the moment of the raise), and Python
dictionaries become association lists or `String → Option _` maps.
Model-backend calls (ollama) are abstracted as oracle parameters giving the
text each call site receives; everything downstream of those calls is
translated from the source.
-/

namespace DMC

/-! ## Python string primitives

The Python string methods used by the engine (`str.strip`, `str.lower`,
`str.startswith`, slicing, `str.splitlines`, `str.join`) are modelled by
structural recursion over the character list of a `String`, so that every
definition evaluates inside the kernel. -/

/-- `str.strip()`: drop leading and trailing whitespace. -/
def pyStrip (s : String) : String :=
  ⟨(((s.data.dropWhile Char.isWhitespace).reverse.dropWhile Char.isWhitespace).reverse)⟩

/-- `str.lower()` (ASCII case folding, which covers every tag in the source). -/
def pyLower (s : String) : String :=
  ⟨s.data.map Char.toLower⟩

/-- `str.startswith(p)`. -/
def pyStartsWith (s p : String) : Bool :=
  p.data.isPrefixOf s.data

/-- Python slicing `s[n:]` (by characters). -/
def pyDropChars (n : Nat) (s : String) : String :=
  ⟨s.data.drop n⟩

/-- Helper for `str.splitlines`: split a character list at newlines. -/
def splitlinesAux : List Char → List Char → List String
  | [], acc => [⟨acc.reverse⟩]
  | c :: rest, acc =>
    if c = '\n' then ⟨acc.reverse⟩ :: splitlinesAux rest []
    else splitlinesAux rest (c :: acc)

/-- `str.splitlines()` restricted to `'\n'` separators (the only line
separator the model backend produces): no entry for a trailing newline and
no entry at all for the empty string. -/
def pySplitlines (s : String) : List String :=
  match splitlinesAux s.data [] with
  | parts =>
    if s.data = [] then []
    else if s.data.getLast? = some '\n' then parts.dropLast
    else parts

/-- `" ".join(parts)` / `"\n".join(parts)`. -/
def pyJoin (sep : String) : List String → String
  | [] => ""
  | [x] => x
  | x :: rest => x ++ sep ++ pyJoin sep rest

/-! ## Budget Manager (src/orchestrator/executor.py, class BudgetManager) -/

/-- State of `BudgetManager`: `self.limits` is an immutable dict set in
`__init__`; `self.usage` starts as `{key: 0 for key in self.limits}` and is
mutated by `consume`.  Both dicts are modelled as `String → Option Int`
(Python ints are unbounded, hence `Int`). -/
structure BudgetManager where
  limits : String → Option Int
  usage : String → Option Int

/-- `BudgetManager.__init__(limits)`: usage maps every limited tool to 0. -/
def BudgetManager.init (limits : String → Option Int) : BudgetManager :=
  { limits := limits
    usage := fun t => if (limits t).isSome then some 0 else none }

/-- `BudgetManager.consume(tool, cost)` (executor.py lines 19-28).
Returns the state after the call together with `some errMsg` when the
Python code raises `BudgetError`.  The raise happens before the
`self.usage[tool] = used + cost` assignment, so in the error branch the
returned state is the unmodified receiver. -/
def BudgetManager.consume (bm : BudgetManager) (tool : String) (cost : Int) :
    BudgetManager × Option String :=
  if cost ≤ 0 then (bm, none)
  else
    match bm.limits tool with
    | none => (bm, none)
    | some limit =>
      let used := (bm.usage tool).getD 0
      if used + cost > limit then
        (bm, some "Budget exceeded for tool")
      else
        ({ bm with usage := fun t => if t = tool then some (used + cost) else bm.usage t },
         none)

/-- Executor-style sequence of `consume` calls in which every raised
`BudgetError` is caught and the loop continues (executor.py lines 63-75);
returns the final manager state and the list of error messages raised. -/
def BudgetManager.consumeAll (bm : BudgetManager) :
    List (String × Int) → BudgetManager × List String
  | [] => (bm, [])
  | (tool, cost) :: rest =>
    match bm.consume tool cost with
    | (bm1, none) => bm1.consumeAll rest
    | (bm1, some e) =>
      let out := bm1.consumeAll rest
      (out.1, e :: out.2)

/-! ## Beat Tracker (src/orchestrator/pipeline.py lines 107-128 and
src/orchestrator/runtime_flow/session_state.py lines 12-33; the two copies
are line-for-line identical). -/

/-- `BeatTracker` dataclass: beat list plus current index (default 0).
The index is only ever incremented from its initial 0, hence `Nat`. -/
structure BeatTracker where
  beats : List String
  index : Nat := 0
  deriving DecidableEq, Repr

/-- `BeatTracker.current`: `self.beats[self.index] if self.beats else ""`. -/
def BeatTracker.current (tr : BeatTracker) : String :=
  if tr.beats.isEmpty then "" else tr.beats.getD tr.index ""

/-- `BeatTracker.next`. -/
def BeatTracker.next (tr : BeatTracker) : String :=
  if tr.beats.isEmpty then ""
  else if tr.index + 1 < tr.beats.length then tr.beats.getD (tr.index + 1) "" else ""

/-- `BeatTracker.progress_text`. -/
def BeatTracker.progress_text (tr : BeatTracker) : String :=
  if tr.beats.isEmpty then "No beats provided."
  else toString (tr.index + 1) ++ "/" ++ toString tr.beats.length ++ ": " ++ tr.current

/-- `BeatTracker.advance`: `if self.index + 1 < len(self.beats): self.index += 1`. -/
def BeatTracker.advance (tr : BeatTracker) : BeatTracker :=
  if tr.index + 1 < tr.beats.length then { tr with index := tr.index + 1 } else tr

/-- The public operations of `BeatTracker`; `current`, `next` and
`progress_text` read the state without changing it, `advance` mutates. -/
inductive BeatOp
  | current
  | next
  | progressText
  | advance
  deriving DecidableEq, Repr

/-- Effect of one operation on the tracker state (the read-only
operations return strings and leave the state untouched). -/
def BeatTracker.apply (tr : BeatTracker) : BeatOp → BeatTracker
  | .current => tr
  | .next => tr
  | .progressText => tr
  | .advance => tr.advance

/-- Run a whole sequence of operations. -/
def BeatTracker.applyAll (tr : BeatTracker) (ops : List BeatOp) : BeatTracker :=
  ops.foldl BeatTracker.apply tr

/-! ## History (src/orchestrator/history.py, class History) -/

/-- One `HistoryTurn(role, payload)`.  The payload is a Python object
(dict or string) whose internal structure `maybe_summarize` never
inspects; it is modelled as an opaque `String`. -/
structure HistoryTurn where
  role : String
  payload : String
  deriving DecidableEq, Repr

/-- `HistorySummary(summary, turns)` (schemas.py). -/
structure HistorySummary where
  summary : String
  turns : List HistoryTurn
  deriving DecidableEq, Repr

/-- `History` state: turn list, optional summary, and the `max_turns` /
`keep_recent` configuration (ints, defaults 8 and 4). -/
structure History where
  turns : List HistoryTurn
  summary : Option HistorySummary := none
  max_turns : Nat := 8
  keep_recent : Nat := 4
  deriving DecidableEq, Repr

/-- Python `xs[-n:]`: the last `n` elements — except that `xs[-0:]` is the
whole list. -/
def pyLastN (n : Nat) (xs : List HistoryTurn) : List HistoryTurn :=
  if n = 0 then xs else xs.drop (xs.length - n)

/-- `History.add_player_turn(player_input)`: appends
`HistoryTurn(role="player", payload={"text": player_input})`. -/
def History.add_player_turn (h : History) (player_input : String) : History :=
  { h with turns := h.turns ++ [{ role := "player", payload := player_input }] }

/-- `History.add_dm_turn(narration)`. -/
def History.add_dm_turn (h : History) (narration : String) : History :=
  { h with turns := h.turns ++ [{ role := "dm", payload := narration }] }

/-- `History.maybe_summarize(adapter)` (history.py lines 40-54).
The single `adapter.request_text("summary", ...)` call is abstracted by
`res`: `none` models the call raising an exception (caught by the
`except Exception: return`), `some s` models it returning the text `s`,
which the source immediately strips. -/
def History.maybe_summarize (h : History) (res : Option String) : History :=
  if h.turns.length < h.max_turns then h
  else
    match res with
    | none => h
    | some s =>
      let summary := pyStrip s
      if summary ≠ "" then
        { h with
          summary := some { summary := summary, turns := pyLastN h.keep_recent h.turns }
          turns := pyLastN h.keep_recent h.turns }
      else h

/-! ## Theorems: Budget Manager (claim C4) -/

/-- `consume` never changes the `limits` dict. -/
theorem BudgetManager.consume_limits (bm : BudgetManager) (tool : String) (cost : Int) :
    (bm.consume tool cost).1.limits = bm.limits := by
  unfold BudgetManager.consume
  split
  · rfl
  · split
    · rfl
    · dsimp only
      split <;> rfl

/-- An unmetered tool makes `consume` a no-op that never raises. -/
theorem BudgetManager.consume_unmetered (bm : BudgetManager) (tool : String) (cost : Int)
    (h : bm.limits tool = none) : bm.consume tool cost = (bm, none) := by
  unfold BudgetManager.consume
  split
  · rfl
  · rw [h]

/-- A call sequence touching only an unmetered tool never raises. -/
theorem BudgetManager.consumeAll_unmetered (bm : BudgetManager) (tool : String)
    (h : bm.limits tool = none) (calls : List (String × Int))
    (hc : ∀ c ∈ calls, c.1 = tool) : (bm.consumeAll calls).2 = [] := by
  induction calls generalizing bm with
  | nil => rfl
  | cons c rest ih =>
    obtain ⟨t, cost⟩ := c
    have ht : t = tool := hc (t, cost) (List.mem_cons_self _ _)
    subst ht
    unfold BudgetManager.consumeAll
    rw [BudgetManager.consume_unmetered bm t cost h]
    exact ih bm h fun c hcmem => hc c (List.mem_cons_of_mem _ hcmem)

/-- C4: with positive cost, `consume(tool, cost)` raises a budget error
exactly when the tool has a configured limit and `usage[tool] + cost`
exceeds it; after such a raise the usage map is unchanged (the raise
precedes the mutation); and a tool absent from the limit map never raises,
however many times it is consumed. -/
theorem budget_consume_correct (bm : BudgetManager) (tool : String) (cost : Int)
    (hc : 0 < cost) :
    ((bm.consume tool cost).2.isSome ↔
       ∃ limit, bm.limits tool = some limit ∧ limit < (bm.usage tool).getD 0 + cost)
    ∧ ((bm.consume tool cost).2.isSome → (bm.consume tool cost).1 = bm)
    ∧ (bm.limits tool = none →
        ∀ calls : List (String × Int), (∀ c ∈ calls, c.1 = tool) →
          (bm.consumeAll calls).2 = []) := by
  refine ⟨?_, ?_, fun hnone calls hcalls =>
    BudgetManager.consumeAll_unmetered bm tool hnone calls hcalls⟩
  · unfold BudgetManager.consume
    have hns : ¬ cost ≤ 0 := not_le.mpr hc
    rw [if_neg hns]
    cases hl : bm.limits tool with
    | none =>
      simp only [Option.isSome_none, Bool.false_eq_true, false_iff]
      rintro ⟨l, hl2, _⟩
      exact Option.noConfusion hl2
    | some limit =>
      dsimp only
      split
      · rename_i hgt
        simp only [Option.isSome_some, true_iff]
        exact ⟨limit, rfl, by omega⟩
      · rename_i hle
        simp only [Option.isSome_none, Bool.false_eq_true, false_iff]
        rintro ⟨l, hl2, hlt⟩
        have : limit = l := Option.some.inj hl2
        omega
  · unfold BudgetManager.consume
    have hns : ¬ cost ≤ 0 := not_le.mpr hc
    rw [if_neg hns]
    cases hl : bm.limits tool with
    | none => intro hsome; rfl
    | some limit =>
      dsimp only
      split
      · intro _; rfl
      · intro hsome; exact absurd hsome (by simp)

/-- Witness for C4 at a concrete manager: tool `"dice"` has limit 2 and
usage 0, so `consume("dice", 1)` does not raise. -/
theorem budget_consume_correct_witness :
    (0 : Int) < 1 ∧
    ((((BudgetManager.init fun t => if t = "dice" then some 2 else none).consume
          "dice" 1).2.isSome ↔
       ∃ limit,
         (BudgetManager.init fun t => if t = "dice" then some 2 else none).limits "dice" =
             some limit ∧
           limit <
             (((BudgetManager.init fun t => if t = "dice" then some 2 else none).usage
                   "dice").getD 0) + 1)
    ∧ (((BudgetManager.init fun t => if t = "dice" then some 2 else none).consume
          "dice" 1).2.isSome →
        ((BudgetManager.init fun t => if t = "dice" then some 2 else none).consume
          "dice" 1).1 = BudgetManager.init fun t => if t = "dice" then some 2 else none)
    ∧ ((BudgetManager.init fun t => if t = "dice" then some 2 else none).limits "dice" =
          none →
        ∀ calls : List (String × Int), (∀ c ∈ calls, c.1 = "dice") →
          ((BudgetManager.init fun t => if t = "dice" then some 2 else none).consumeAll
              calls).2 = [])) :=
  ⟨by decide,
   budget_consume_correct (BudgetManager.init fun t => if t = "dice" then some 2 else none)
     "dice" 1 (by decide)⟩

/-! ## Theorems: Beat Tracker (claim C9) -/

/-- No operation changes the beat list. -/
theorem BeatTracker.apply_beats (tr : BeatTracker) (op : BeatOp) :
    (tr.apply op).beats = tr.beats := by
  cases op
  · rfl
  · rfl
  · rfl
  · show (tr.advance).beats = tr.beats
    unfold BeatTracker.advance
    split <;> rfl

/-- Every single operation is monotone in the index. -/
theorem BeatTracker.apply_index_le (tr : BeatTracker) (op : BeatOp) :
    tr.index ≤ (tr.apply op).index := by
  cases op <;> simp [BeatTracker.apply, BeatTracker.advance]
  split <;> simp

/-- Every single operation preserves the bound `index ≤ len(beats) - 1`
(natural subtraction: the bound is 0 for an empty beat list). -/
theorem BeatTracker.apply_index_bound (tr : BeatTracker) (op : BeatOp)
    (h : tr.index ≤ tr.beats.length - 1) :
    (tr.apply op).index ≤ (tr.apply op).beats.length - 1 := by
  rw [BeatTracker.apply_beats]
  cases op <;> simp [BeatTracker.apply, BeatTracker.advance] at *
  · exact h
  · exact h
  · exact h
  · split
    · rename_i hlt
      simp
      omega
    · exact h

/-- C9 counterexample: the tracker constructed over an empty beat list
(before any operation) has `index = 0`, which violates the claimed bound
`index ≤ len(beats) - 1 = -1`. -/
theorem beat_index_bound_ctrex :
    ¬ (((BeatTracker.applyAll { beats := [], index := 0 } []).index : Int) ≤
        (({ beats := [], index := 0 } : BeatTracker).beats.length : Int) - 1) := by
  decide

/-- A whole operation sequence never changes the beat list. -/
theorem BeatTracker.applyAll_beats (ops : List BeatOp) :
    ∀ tr : BeatTracker, (tr.applyAll ops).beats = tr.beats := by
  induction ops with
  | nil => intro tr; rfl
  | cons op rest ih =>
    intro tr
    unfold BeatTracker.applyAll at *
    rw [List.foldl_cons, ih, BeatTracker.apply_beats]

/-- A whole operation sequence is monotone in the index. -/
theorem BeatTracker.applyAll_index_le (ops : List BeatOp) :
    ∀ tr : BeatTracker, tr.index ≤ (tr.applyAll ops).index := by
  induction ops with
  | nil => intro tr; exact le_refl _
  | cons op rest ih =>
    intro tr
    unfold BeatTracker.applyAll at *
    rw [List.foldl_cons]
    exact le_trans (BeatTracker.apply_index_le tr op) (ih (tr.apply op))

/-- A whole operation sequence preserves `index ≤ len(beats) - 1`
(natural subtraction). -/
theorem BeatTracker.applyAll_index_bound (ops : List BeatOp) :
    ∀ tr : BeatTracker, tr.index ≤ tr.beats.length - 1 →
      (tr.applyAll ops).index ≤ (tr.applyAll ops).beats.length - 1 := by
  induction ops with
  | nil => intro tr h; exact h
  | cons op rest ih =>
    intro tr h
    unfold BeatTracker.applyAll at *
    rw [List.foldl_cons]
    exact ih (tr.apply op) (BeatTracker.apply_index_bound tr op h)

/-- C9 amended: for every tracker the index never decreases under any
operation sequence, and a tracker constructed over `beats` (index 0)
always satisfies `index ≤ max (len(beats) - 1) 0` — equal to
`len(beats) - 1` whenever `beats` is non-empty, while over an empty beat
list the index simply stays 0. -/
theorem beat_index_bound_amended (tr : BeatTracker) (beats : List String)
    (ops : List BeatOp) :
    tr.index ≤ (tr.applyAll ops).index
    ∧ ((BeatTracker.applyAll { beats := beats, index := 0 } ops).index : Int) ≤
        max ((beats.length : Int) - 1) 0 := by
  refine ⟨BeatTracker.applyAll_index_le ops tr, ?_⟩
  have hb := BeatTracker.applyAll_beats ops { beats := beats, index := 0 }
  have hk := BeatTracker.applyAll_index_bound ops { beats := beats, index := 0 }
    (Nat.zero_le _)
  rw [hb] at hk
  simp only at hk
  omega

/-! ## Theorems: History compaction (claims C7 and C10) -/

/-- C10: if the summarization request raises (`res = none`) or returns
empty/whitespace-only text, `maybe_summarize` leaves the turn list and the
stored summary — in fact the whole `History` — exactly as they were. -/
theorem history_compaction_all_or_nothing (h : History) (res : Option String)
    (hres : res = none ∨ ∃ s, res = some s ∧ pyStrip s = "") :
    h.maybe_summarize res = h := by
  unfold History.maybe_summarize
  split
  · rfl
  · rcases hres with hnone | ⟨s, hsome, htrim⟩
    · rw [hnone]
    · rw [hsome]
      simp [htrim]

/-- Concrete full history used in the C10 witness. -/
def c10hist : History :=
  { turns := List.replicate 8 { role := "player", payload := "hi" } }

/-- Witness for C10: an 8-turn history and a whitespace-only response. -/
theorem history_compaction_all_or_nothing_witness :
    ((some "  " = (none : Option String)) ∨
      ∃ s, (some "  " = some s) ∧ pyStrip s = "") ∧
    c10hist.maybe_summarize (some "  ") = c10hist :=
  ⟨Or.inr ⟨"  ", rfl, by decide⟩,
   history_compaction_all_or_nothing c10hist (some "  ")
     (Or.inr ⟨"  ", rfl, by decide⟩)⟩

/-- Concrete full history used for the C7 counterexample and witness. -/
def c7hist : History :=
  { turns := List.replicate 8 { role := "player", payload := "hi" } }

/-- C7 counterexample: with 8 stored turns the summarization request
returns the non-empty text `" "`, yet the turn list is not replaced by the
most recent 4 turns and no summary is stored (the source strips the text
first and treats the whitespace-only result like an empty one). -/
theorem history_compaction_ctrex :
    (" " ≠ "") ∧
    8 ≤ c7hist.turns.length ∧
    (c7hist.maybe_summarize (some " ")).turns ≠ pyLastN 4 c7hist.turns ∧
    (c7hist.maybe_summarize (some " ")).summary = none := by
  decide

/-- C7 amended: with `max_turns = 8`, `keep_recent = 4`, calling
`maybe_summarize` with fewer than 8 stored turns changes nothing; with at
least 8 turns, if the summarization request returns text that is non-empty
after stripping, the turn list is replaced by exactly the most recent 4
turns and the summary is set to the stripped text (paired with those same
4 turns). -/
theorem history_compaction_amended (h : History) (s : String)
    (hmax : h.max_turns = 8) (hkeep : h.keep_recent = 4) :
    (h.turns.length < 8 → ∀ res, h.maybe_summarize res = h)
    ∧ (8 ≤ h.turns.length → pyStrip s ≠ "" →
        (h.maybe_summarize (some s)).turns = pyLastN 4 h.turns
        ∧ (h.maybe_summarize (some s)).summary =
            some { summary := pyStrip s, turns := pyLastN 4 h.turns }) := by
  constructor
  · intro hlt res
    unfold History.maybe_summarize
    rw [hmax, if_pos hlt]
  · intro hge htrim
    unfold History.maybe_summarize
    rw [hmax, hkeep, if_neg (by omega)]
    simp [htrim]

/-- Witness for C7 amended: 8 player turns and the response `"A tale."`. -/
theorem history_compaction_amended_witness :
    c7hist.max_turns = 8 ∧ c7hist.keep_recent = 4 ∧
    8 ≤ c7hist.turns.length ∧ pyStrip "A tale." ≠ "" ∧
    ((c7hist.maybe_summarize (some "A tale.")).turns = pyLastN 4 c7hist.turns
      ∧ (c7hist.maybe_summarize (some "A tale.")).summary =
          some { summary := pyStrip "A tale.", turns := pyLastN 4 c7hist.turns }) :=
  ⟨rfl, rfl, by decide, by decide,
   (history_compaction_amended c7hist "A tale." rfl rfl).2 (by decide) (by decide)⟩

/-! ## Section-Tag Codec
(src/orchestrator/llm_interaction/step.py `parse_sections`, lines 75-100,
and src/orchestrator/runtime_flow/step.py `parse_sections`, lines 132-157.
The two differ only in how a repeated tag line updates the dict:
`result[tag] = [content]` versus `result.setdefault(tag, []).append(content)`,
and in the tag iteration order, which is modelled by the order of the
`tags` list — the llm_interaction copy iterates `sorted(tags)`.) -/

/-- Accumulator dict `result: Dict[str, List[str]]`, as an
insertion-ordered association list. -/
abbrev SectionAcc := List (String × List String)

/-- Python `result[tag] = value`: replace in place when the key exists
(dict assignment keeps the original insertion position), append otherwise. -/
def dictAssign (m : SectionAcc) (k : String) (v : List String) : SectionAcc :=
  if m.any (fun p => p.1 = k) then
    m.map (fun p => if p.1 = k then (k, v) else p)
  else m ++ [(k, v)]

/-- Python `result.setdefault(tag, []).append(content)`. -/
def dictSetdefaultAppend (m : SectionAcc) (k : String) (x : String) : SectionAcc :=
  if m.any (fun p => p.1 = k) then
    m.map (fun p => if p.1 = k then (p.1, p.2 ++ [x]) else p)
  else m ++ [(k, [x])]

/-- Python `result[current].append(stripped)` (the key is present whenever
`current` is set; on a missing key this is a no-op instead of Python's
`KeyError`, a branch the scanners below never reach). -/
def dictAppendTo (m : SectionAcc) (k : String) (x : String) : SectionAcc :=
  m.map (fun p => if p.1 = k then (p.1, p.2 ++ [x]) else p)

/-- Scanner state: the accumulated dict and the most recently opened tag. -/
structure ScanState where
  result : SectionAcc
  current : Option String
  deriving DecidableEq, Repr

/-- Find the first recognized tag whose `"tag:"` prefix starts the
lowercased stripped line. -/
def findTag (tags : List String) (lower : String) : Option String :=
  tags.find? (fun tag => pyStartsWith lower (tag ++ ":"))

/-- Does a line open a recognized section? -/
def isTagLine (tags : List String) (line : String) : Bool :=
  (findTag tags (pyLower (pyStrip line))).isSome

/-- One loop iteration of the llm_interaction `parse_sections`. -/
def scanLineLL (tags : List String) (st : ScanState) (line : String) : ScanState :=
  let stripped := pyStrip line
  let lower := pyLower stripped
  match findTag tags lower with
  | some tag =>
    let content := pyStrip (pyDropChars (tag.length + 1) stripped)
    { result := dictAssign st.result tag [content], current := some tag }
  | none =>
    match st.current with
    | some cur =>
      if stripped ≠ "" then { st with result := dictAppendTo st.result cur stripped }
      else st
    | none => st

/-- One loop iteration of the runtime_flow `parse_sections`. -/
def scanLineRT (tags : List String) (st : ScanState) (line : String) : ScanState :=
  let stripped := pyStrip line
  let lower := pyLower stripped
  match findTag tags lower with
  | some tag =>
    let content := pyStrip (pyDropChars (tag.length + 1) stripped)
    { result := dictSetdefaultAppend st.result tag content, current := some tag }
  | none =>
    match st.current with
    | some cur =>
      if stripped ≠ "" then { st with result := dictAppendTo st.result cur stripped }
      else st
    | none => st

/-- Final comprehension
`{tag: " ".join(lines).strip() for tag, lines in result.items() if lines}`. -/
def finalizeSections (m : SectionAcc) : List (String × String) :=
  (m.filter (fun p => !p.2.isEmpty)).map (fun p => (p.1, pyStrip (pyJoin " " p.2)))

/-- llm_interaction `parse_sections` over an explicit line list. -/
def parseSectionsLinesLL (lines : List String) (tags : List String) :
    List (String × String) :=
  finalizeSections (lines.foldl (scanLineLL tags) { result := [], current := none }).result

/-- runtime_flow `parse_sections` over an explicit line list. -/
def parseSectionsLinesRT (lines : List String) (tags : List String) :
    List (String × String) :=
  finalizeSections (lines.foldl (scanLineRT tags) { result := [], current := none }).result

/-- llm_interaction `parse_sections(text, tags)`. -/
def parse_sections (text : String) (tags : List String) : List (String × String) :=
  parseSectionsLinesLL (pySplitlines text) tags

/-- runtime_flow `parse_sections(text, tags)`. -/
def parse_sections_rt (text : String) (tags : List String) : List (String × String) :=
  parseSectionsLinesRT (pySplitlines text) tags

/-! ## Theorems: Section-Tag Codec (claim C8) -/

/-- Folding any scanner that ignores pre-tag lines from the initial state
is unaffected by dropping the discarded prefix. -/
theorem foldl_dropWhile_init {α : Type} (f : ScanState → α → ScanState)
    (p : α → Bool) (init : ScanState)
    (hf : ∀ l, p l = false → f init l = init) (lines : List α) :
    lines.foldl f init = (lines.dropWhile (fun l => !p l)).foldl f init := by
  induction lines with
  | nil => rfl
  | cons l rest ih =>
    by_cases hpl : p l = true
    · rw [List.dropWhile_cons]
      simp [hpl]
    · have hpl2 : p l = false := by
        cases hq : p l
        · rfl
        · exact absurd hq hpl
      rw [List.dropWhile_cons]
      simp only [hpl2, Bool.not_false, if_pos]
      rw [List.foldl_cons, hf l hpl2]
      exact ih

/-- Keys produced by `dictAssign` come from the old dict or are the
assigned key. -/
theorem dictAssign_keys (m : SectionAcc) (k : String) (v : List String)
    (q : String × List String) (hq : q ∈ dictAssign m k v) :
    (∃ r ∈ m, q.1 = r.1) ∨ q.1 = k := by
  unfold dictAssign at hq
  split at hq
  · obtain ⟨r, hr, hrq⟩ := List.mem_map.mp hq
    by_cases h : r.1 = k
    · right; rw [← hrq]; simp [h]
    · left; exact ⟨r, hr, by rw [← hrq]; simp [h]⟩
  · rcases List.mem_append.mp hq with h | h
    · exact Or.inl ⟨q, h, rfl⟩
    · right
      have : q = (k, v) := List.mem_singleton.mp h
      rw [this]

/-- Keys produced by `dictSetdefaultAppend` come from the old dict or are
the updated key. -/
theorem dictSetdefaultAppend_keys (m : SectionAcc) (k : String) (x : String)
    (q : String × List String) (hq : q ∈ dictSetdefaultAppend m k x) :
    (∃ r ∈ m, q.1 = r.1) ∨ q.1 = k := by
  unfold dictSetdefaultAppend at hq
  split at hq
  · obtain ⟨r, hr, hrq⟩ := List.mem_map.mp hq
    by_cases h : r.1 = k
    · right; rw [← hrq]; simp [h]
    · left; exact ⟨r, hr, by rw [← hrq]; simp [h]⟩
  · rcases List.mem_append.mp hq with h | h
    · exact Or.inl ⟨q, h, rfl⟩
    · right
      have : q = (k, [x]) := List.mem_singleton.mp h
      rw [this]

/-- Keys produced by `dictAppendTo` come from the old dict. -/
theorem dictAppendTo_keys (m : SectionAcc) (k : String) (x : String)
    (q : String × List String) (hq : q ∈ dictAppendTo m k x) :
    ∃ r ∈ m, q.1 = r.1 := by
  unfold dictAppendTo at hq
  obtain ⟨r, hr, hrq⟩ := List.mem_map.mp hq
  refine ⟨r, hr, ?_⟩
  rw [← hrq]
  by_cases h : r.1 = k <;> simp [h]

/-- Every key of the accumulator is a recognized tag. -/
def KeysOk (tags : List String) (m : SectionAcc) : Prop :=
  ∀ q ∈ m, q.1 ∈ tags

/-- One llm_interaction scan step preserves the key invariant. -/
theorem scanLineLL_keys (tags : List String) (st : ScanState) (l : String)
    (h : KeysOk tags st.result) : KeysOk tags (scanLineLL tags st l).result := by
  cases hft : findTag tags (pyLower (pyStrip l)) with
  | some tag =>
    intro q hq
    simp only [scanLineLL, hft] at hq
    rcases dictAssign_keys _ _ _ q hq with ⟨r, hr, hqr⟩ | hqk
    · exact hqr ▸ h r hr
    · rw [hqk]
      exact List.mem_of_find?_eq_some hft
  | none =>
    cases hcur : st.current with
    | some cur =>
      by_cases hs : pyStrip l ≠ ""
      · intro q hq
        simp only [scanLineLL, hft, hcur, if_pos hs] at hq
        obtain ⟨r, hr, hqr⟩ := dictAppendTo_keys _ _ _ q hq
        exact hqr ▸ h r hr
      · intro q hq
        simp only [scanLineLL, hft, hcur, if_neg hs] at hq
        exact h q hq
    | none =>
      intro q hq
      simp only [scanLineLL, hft, hcur] at hq
      exact h q hq

/-- One runtime_flow scan step preserves the key invariant. -/
theorem scanLineRT_keys (tags : List String) (st : ScanState) (l : String)
    (h : KeysOk tags st.result) : KeysOk tags (scanLineRT tags st l).result := by
  cases hft : findTag tags (pyLower (pyStrip l)) with
  | some tag =>
    intro q hq
    simp only [scanLineRT, hft] at hq
    rcases dictSetdefaultAppend_keys _ _ _ q hq with ⟨r, hr, hqr⟩ | hqk
    · exact hqr ▸ h r hr
    · rw [hqk]
      exact List.mem_of_find?_eq_some hft
  | none =>
    cases hcur : st.current with
    | some cur =>
      by_cases hs : pyStrip l ≠ ""
      · intro q hq
        simp only [scanLineRT, hft, hcur, if_pos hs] at hq
        obtain ⟨r, hr, hqr⟩ := dictAppendTo_keys _ _ _ q hq
        exact hqr ▸ h r hr
      · intro q hq
        simp only [scanLineRT, hft, hcur, if_neg hs] at hq
        exact h q hq
    | none =>
      intro q hq
      simp only [scanLineRT, hft, hcur] at hq
      exact h q hq

/-- Folding a key-invariant-preserving scanner preserves the invariant. -/
theorem foldl_keys (tags : List String) (f : ScanState → String → ScanState)
    (hf : ∀ st l, KeysOk tags st.result → KeysOk tags (f st l).result)
    (lines : List String) :
    ∀ st : ScanState, KeysOk tags st.result →
      KeysOk tags (lines.foldl f st).result := by
  induction lines with
  | nil => intro st h; exact h
  | cons l rest ih =>
    intro st h
    rw [List.foldl_cons]
    exact ih (f st l) (hf st l h)

/-- Keys survive `finalizeSections`. -/
theorem finalizeSections_keys (tags : List String) (m : SectionAcc)
    (h : KeysOk tags m) : ∀ p ∈ finalizeSections m, p.1 ∈ tags := by
  intro p hp
  unfold finalizeSections at hp
  obtain ⟨r, hr, hrp⟩ := List.mem_map.mp hp
  have hrm : r ∈ m := List.mem_of_mem_filter hr
  have : p.1 = r.1 := by rw [← hrp]
  exact this ▸ h r hrm

/-- A line opening no recognized section leaves the initial scanner state
unchanged (llm_interaction scanner). -/
theorem scanLineLL_init_skip (tags : List String) (l : String)
    (h : isTagLine tags l = false) :
    scanLineLL tags { result := [], current := none } l =
      { result := [], current := none } := by
  unfold isTagLine at h
  cases hft : findTag tags (pyLower (pyStrip l)) with
  | some tag => rw [hft] at h; exact absurd h (by simp)
  | none => simp only [scanLineLL, hft]

/-- A line opening no recognized section leaves the initial scanner state
unchanged (runtime_flow scanner). -/
theorem scanLineRT_init_skip (tags : List String) (l : String)
    (h : isTagLine tags l = false) :
    scanLineRT tags { result := [], current := none } l =
      { result := [], current := none } := by
  unfold isTagLine at h
  cases hft : findTag tags (pyLower (pyStrip l)) with
  | some tag => rw [hft] at h; exact absurd h (by simp)
  | none => simp only [scanLineRT, hft]

/-- C8: both `parse_sections` codecs return a tag-to-text map for every
input (they are total functions, hence never raise); every key of the
returned map is a recognized tag (unrecognized tags never produce an
entry); and the output over the full line list equals the output over the
suffix starting at the first recognized tag line, so no content from the
discarded prefix appears in any entry. -/
theorem parse_sections_spec (text : String) (tags : List String) :
    (∀ p ∈ parse_sections text tags, p.1 ∈ tags)
    ∧ parse_sections text tags =
        parseSectionsLinesLL
          ((pySplitlines text).dropWhile (fun l => !isTagLine tags l)) tags
    ∧ (∀ p ∈ parse_sections_rt text tags, p.1 ∈ tags)
    ∧ parse_sections_rt text tags =
        parseSectionsLinesRT
          ((pySplitlines text).dropWhile (fun l => !isTagLine tags l)) tags := by
  refine ⟨?_, ?_, ?_, ?_⟩
  · exact finalizeSections_keys tags _
      (foldl_keys tags (scanLineLL tags) (scanLineLL_keys tags) (pySplitlines text)
        { result := [], current := none } (by intro q hq; exact absurd hq (by simp)))
  · unfold parse_sections parseSectionsLinesLL
    rw [foldl_dropWhile_init (scanLineLL tags) (isTagLine tags)
      { result := [], current := none } (scanLineLL_init_skip tags) (pySplitlines text)]
  · exact finalizeSections_keys tags _
      (foldl_keys tags (scanLineRT tags) (scanLineRT_keys tags) (pySplitlines text)
        { result := [], current := none } (by intro q hq; exact absurd hq (by simp)))
  · unfold parse_sections_rt parseSectionsLinesRT
    rw [foldl_dropWhile_init (scanLineRT tags) (isTagLine tags)
      { result := [], current := none } (scanLineRT_init_skip tags) (pySplitlines text)]

/-! ## Step Engine (src/orchestrator/llm_interaction/step.py, class LLMStep,
`run` at lines 26-66; the cited twin at src/orchestrator/pipeline.py lines
172-192 has the same validator-driven retry loop). -/

/-- Decoded section map, the output of `parse_sections`. -/
abbrev Sections := List (String × String)

/-- `LLMStep` definition.  A Python validator either returns `None` or
raises; it is modelled as `Sections → Except String Unit` (`validator=None`
corresponds to `fun _ => .ok ()`).  The parser may also raise, hence
`Sections → Except String α`; the parser-less case is the identity parser
at `α = Sections`. -/
structure LLMStep (α : Type) where
  name : String
  system_prompt : String
  tags : List String
  use_cot : Bool := true
  max_attempts : Nat := 3
  validator : Sections → Except String Unit
  parser : Sections → Except String α

/-- The tag set actually decoded: the step's tags plus `"thoughts"` when
chain-of-thought is enabled (the Python iterates `sorted(...)`; the model
keeps the list order, on which no claim depends). -/
def LLMStep.runTags {α : Type} (step : LLMStep α) : List String :=
  if step.use_cot then step.tags ++ ["thoughts"] else step.tags

/-- Body of the `try:` block of `LLMStep.run`: run the validator, then the
parser; the first raised exception wins. -/
def LLMStep.tryBlock {α : Type} (step : LLMStep α) (sections : Sections) :
    Except String α :=
  match step.validator sections with
  | .error e => .error e
  | .ok _ => step.parser sections

/-- One attempt record (source: the dict appended to `attempts`). -/
structure AttemptRec (α : Type) where
  attempt : Nat
  prompt : String
  raw : String
  sections : Sections
  outcome : Except String α

/-- Result of a whole `LLMStep.run`: the returned value (or the fatal
`LLMError` message), the attempt trace, and the number of
`adapter.request_text` gateway calls issued. -/
structure StepRun (α : Type) where
  res : Except String α
  attempts : List (AttemptRec α)
  calls : Nat

/-- The attempt loop of `LLMStep.run`.  `adapter` abstracts
`adapter.request_text(self.name, self.system_prompt, payload_text)`, giving
the text the gateway returns on the n-th attempt (one gateway call per
loop iteration); `fuel` is the number of remaining attempts. -/
def LLMStep.runAux {α : Type} (step : LLMStep α) (adapter : Nat → String) :
    Nat → Nat → String → List (AttemptRec α) → StepRun α
  | 0, _, _, attempts =>
    { res := .error ("Step '" ++ step.name ++ "' failed after " ++
        toString step.max_attempts ++ " attempts.")
      attempts := attempts
      calls := 0 }
  | fuel + 1, attemptNum, payload, attempts =>
    let raw := adapter attemptNum
    let sections := parse_sections raw step.runTags
    match step.tryBlock sections with
    | .error exc =>
      let failRec : AttemptRec α :=
        { attempt := attemptNum, prompt := payload, raw := raw,
          sections := sections, outcome := .error exc }
      let payload2 := payload ++ "\n\n(Note: last output was invalid: " ++ exc ++
        ". Please follow the required format.)"
      let out := step.runAux adapter fuel (attemptNum + 1) payload2 (attempts ++ [failRec])
      { out with calls := out.calls + 1 }
    | .ok parsed =>
      let okRec : AttemptRec α :=
        { attempt := attemptNum, prompt := payload, raw := raw,
          sections := sections, outcome := .ok parsed }
      { res := .ok parsed
        attempts := attempts ++ [okRec]
        calls := 1 }

/-- `LLMStep.run(adapter, payload_text)`. -/
def LLMStep.run {α : Type} (step : LLMStep α) (adapter : Nat → String)
    (payload : String) : StepRun α :=
  step.runAux adapter step.max_attempts 1 payload []

/-! ## Theorems: Step Engine retry discipline (claim C3) -/

/-- With an always-raising validator, the attempt loop burns all its fuel,
one gateway call per unit, and ends in the fatal stage error. -/
theorem LLMStep.runAux_always_fail {α : Type} (step : LLMStep α)
    (adapter : Nat → String)
    (hval : ∀ s, ∃ e, step.validator s = Except.error e) (fuel : Nat) :
    ∀ attemptNum payload attempts,
      (step.runAux adapter fuel attemptNum payload attempts).calls = fuel ∧
      ∃ e, (step.runAux adapter fuel attemptNum payload attempts).res =
        Except.error e := by
  induction fuel with
  | zero =>
    intro attemptNum payload attempts
    exact ⟨rfl, _, rfl⟩
  | succ n ih =>
    intro attemptNum payload attempts
    obtain ⟨e, he⟩ := hval (parse_sections (adapter attemptNum) step.runTags)
    have htry : step.tryBlock (parse_sections (adapter attemptNum) step.runTags) =
        Except.error e := by
      unfold LLMStep.tryBlock
      rw [he]
    constructor
    · simp only [LLMStep.runAux, htry]
      exact congrArg (· + 1) (ih _ _ _).1
    · simp only [LLMStep.runAux, htry]
      exact (ih _ _ _).2

/-- C3: if the configured validator raises on every decoded section map,
`LLMStep.run` issues exactly `max_attempts` gateway calls and then raises
the fatal stage error; if the validator raises on no input (and the parser
succeeds), it issues exactly one gateway call and returns the result
parsed from the first response. -/
theorem step_engine_attempts {α : Type} (step : LLMStep α) (adapter : Nat → String)
    (payload : String) :
    ((∀ s, ∃ e, step.validator s = Except.error e) →
      (step.run adapter payload).calls = step.max_attempts ∧
      ∃ e, (step.run adapter payload).res = Except.error e)
    ∧ ((∀ s, step.validator s = Except.ok ()) →
        (∀ s, ∃ a, step.parser s = Except.ok a) →
        1 ≤ step.max_attempts →
        (step.run adapter payload).calls = 1 ∧
        (step.run adapter payload).res =
          step.parser (parse_sections (adapter 1) step.runTags)) := by
  constructor
  · intro hval
    exact LLMStep.runAux_always_fail step adapter hval step.max_attempts 1 payload []
  · intro hval hpar hmax
    obtain ⟨m, hm⟩ : ∃ m, step.max_attempts = m + 1 := ⟨step.max_attempts - 1, by omega⟩
    obtain ⟨a, ha⟩ := hpar (parse_sections (adapter 1) step.runTags)
    have htry : step.tryBlock (parse_sections (adapter 1) step.runTags) =
        Except.ok a := by
      unfold LLMStep.tryBlock
      rw [hval, ha]
    unfold LLMStep.run
    rw [hm]
    simp only [LLMStep.runAux, htry]
    exact ⟨trivial, ha.symm⟩

/-- Concrete step whose validator raises on every input (C3 witness). -/
def c3failStep : LLMStep Sections :=
  { name := "validate"
    system_prompt := ""
    tags := ["verdict"]
    validator := fun _ => Except.error "Verdict must be approve or revise."
    parser := fun s => Except.ok s }

/-- Concrete step whose validator raises on no input (C3 witness). -/
def c3passStep : LLMStep Sections :=
  { name := "plan"
    system_prompt := ""
    tags := ["plan"]
    validator := fun _ => Except.ok ()
    parser := fun s => Except.ok s }

/-- Witness for C3: a step whose validator always raises makes 3 = its
`max_attempts` gateway calls and fails; a step whose validator never
raises makes exactly one call and returns the parsed first response. -/
theorem step_engine_attempts_witness :
    ((c3failStep.run (fun _ => "hello") "payload").calls = c3failStep.max_attempts ∧
      ∃ e, (c3failStep.run (fun _ => "hello") "payload").res = Except.error e) ∧
    ((c3passStep.run (fun _ => "Plan: go north") "payload").calls = 1 ∧
      (c3passStep.run (fun _ => "Plan: go north") "payload").res =
        Except.ok (parse_sections "Plan: go north" c3passStep.runTags)) :=
  ⟨(step_engine_attempts c3failStep (fun _ => "hello") "payload").1
      (fun _ => ⟨"Verdict must be approve or revise.", rfl⟩),
   (step_engine_attempts c3passStep (fun _ => "Plan: go north") "payload").2
      (fun _ => rfl) (fun s => ⟨s, rfl⟩) (by decide)⟩

/-! ## Tool-Invocation Loop
(src/orchestrator/llm_interaction/adapter.py, `LLMAdapter.run_tool_loop`,
lines 363-503).  The backend response of each `request_with_tools` call is
abstracted as an iteration-indexed oracle supplying the extracted content
and the already-normalized tool calls; argument payloads and tool results
are carried as opaque strings (their internal JSON structure feeds no
branch of the loop). -/

/-- One normalized tool call `{'id', 'name', 'arguments'}`. -/
structure ToolCall where
  id : String
  name : String
  arguments : String
  deriving DecidableEq, Repr

/-- What one `request_with_tools` call yields: extracted message content
and normalized tool calls. -/
structure LoopResponse where
  content : String
  toolCalls : List ToolCall
  deriving DecidableEq, Repr

/-- One conversation message appended by the loop. -/
structure Msg where
  role : String
  content : String
  toolName : Option String := none
  toolCalls : List ToolCall := []
  deriving DecidableEq, Repr

/-- The `tool_payload` dict attached to a processed call: copied from a
dict-shaped tool result, wrapped from a non-dict result, blocked by the
pre-hook, missing executor, or handler exception. -/
inductive ToolPayload
  | fromTool (s : String)
  | okResult (s : String)
  | blocked (reason : String)
  | noExecutor (toolName : String)
  | errored (e : String)
  deriving DecidableEq, Repr

/-- `json.dumps(tool_payload, ...)` — the rendering that goes into the
synthetic tool-result message (its exact byte format feeds no branch). -/
def payloadText : ToolPayload → String
  | .fromTool s => s
  | .okResult s => s
  | .blocked reason => reason
  | .noExecutor toolName => "No tool executor configured for " ++ toolName
  | .errored e => e

/-- What a tool executor returns: a dict (copied as the payload) or any
other value (wrapped as `{"ok": True, "result": ...}`); raising is the
`Except.error` case. -/
inductive ExecResult
  | dict (s : String)
  | plain (s : String)
  deriving DecidableEq, Repr

/-- Result of `pre_tool_use` (`{"allow": ..., "reason": ...}`). -/
structure PreResult where
  allow : Bool := true
  reason : Option String := none
  deriving DecidableEq, Repr

/-- One entry of `tool_trace` / `round_info["tool_results"]`. -/
structure ToolEntry where
  iteration : Nat
  name : String
  arguments : String
  result : ToolPayload
  deriving DecidableEq, Repr

/-- One entry of `rounds`. -/
structure RoundInfo where
  iteration : Nat
  assistantText : String
  toolCalls : List ToolCall
  toolResults : List ToolEntry
  stopHookActive : Bool
  stopBlockReason : Option String := none
  deriving DecidableEq, Repr

/-- The dict `run_tool_loop` returns. -/
structure LoopResult where
  status : String
  finalAnswer : String
  rounds : List RoundInfo
  messages : List Msg
  toolCalls : List ToolEntry
  deriving DecidableEq, Repr

/-- The loop's collaborators: the response oracle plus the optional
`tool_executor`, `pre_tool_use`, `post_tool_use` and `stop_hook`. -/
structure LoopCfg where
  oracle : Nat → LoopResponse
  toolExecutor : Option (String → String → Except String ExecResult) := none
  preToolUse : Option (String → String → Option PreResult) := none
  postToolUse : Option (String → String → ToolPayload → Option String) := none
  stopHook : Option (String → Bool → Option String) := none

/-- Processing of one requested call inside the per-round `for` loop:
pre-hook veto, executor dispatch (or its absence), the tool-result
message, and the optional post-hook note.  The accumulator carries the
entry list and the conversation messages. -/
def processCall (cfg : LoopCfg) (iteration : Nat)
    (acc : List ToolEntry × List Msg) (call : ToolCall) :
    List ToolEntry × List Msg :=
  let preResult : PreResult :=
    match cfg.preToolUse with
    | some hook => (hook call.name call.arguments).getD {}
    | none => {}
  let payload : ToolPayload :=
    if !preResult.allow then
      .blocked (preResult.reason.getD "Blocked by pre_tool_use hook.")
    else
      match cfg.toolExecutor with
      | none => .noExecutor call.name
      | some execute =>
        match execute call.name call.arguments with
        | .ok (.dict s) => .fromTool s
        | .ok (.plain s) => .okResult s
        | .error e => .errored e
  let entry : ToolEntry :=
    { iteration := iteration, name := call.name, arguments := call.arguments,
      result := payload }
  let msgs1 := acc.2 ++
    [{ role := "tool", content := payloadText payload, toolName := some call.name }]
  let msgs2 :=
    match cfg.postToolUse with
    | some hook =>
      match hook call.name call.arguments payload with
      | some note =>
        if note ≠ "" then msgs1 ++ [{ role := "user", content := "Hook note: " ++ note }]
        else msgs1
      | none => msgs1
    | none => msgs1
  (acc.1 ++ [entry], msgs2)

/-- The iteration loop of `run_tool_loop`; `fuel` is the number of
remaining iterations (`max_iterations + 1 - iteration`). -/
def runToolLoopAux (cfg : LoopCfg) :
    Nat → Nat → List Msg → List RoundInfo → List ToolEntry → Bool → LoopResult
  | 0, _, msgs, rounds, trace, _ =>
    { status := "max_iterations"
      finalAnswer := "Stopped due to max iterations before final response."
      rounds := rounds
      messages := msgs
      toolCalls := trace }
  | fuel + 1, iteration, msgs, rounds, trace, stopActive =>
    let resp := cfg.oracle iteration
    let assistantText := pyStrip resp.content
    let toolCalls := resp.toolCalls
    if toolCalls.isEmpty then
      let doneRound : RoundInfo :=
        { iteration := iteration, assistantText := assistantText,
          toolCalls := toolCalls, toolResults := [], stopHookActive := stopActive }
      let done : LoopResult :=
        { status := "completed"
          finalAnswer := assistantText
          rounds := rounds ++ [doneRound]
          messages := msgs ++ [{ role := "assistant", content := assistantText }]
          toolCalls := trace }
      let stopReason : Option String :=
        match cfg.stopHook with
        | some hook => hook assistantText stopActive
        | none => none
      match stopReason with
      | some reason =>
        if reason ≠ "" then
          let blockedRound : RoundInfo :=
            { doneRound with stopBlockReason := some reason }
          let blockMsg : Msg :=
            { role := "user"
              content := "You were about to finish, but a stop hook blocked completion: "
                ++ reason }
          runToolLoopAux cfg fuel (iteration + 1) (msgs ++ [blockMsg])
            (rounds ++ [blockedRound]) trace true
        else done
      | none => done
    else
      let assistantMsg : Msg :=
        { role := "assistant", content := assistantText, toolCalls := toolCalls }
      let out := toolCalls.foldl (processCall cfg iteration) ([], msgs ++ [assistantMsg])
      let toolRound : RoundInfo :=
        { iteration := iteration, assistantText := assistantText,
          toolCalls := toolCalls, toolResults := out.1, stopHookActive := stopActive }
      runToolLoopAux cfg fuel (iteration + 1) out.2
        (rounds ++ [toolRound]) (trace ++ out.1) stopActive

/-- `LLMAdapter.run_tool_loop(...)`: `max_iterations = max(1, max_iterations)`,
then the iteration loop starting with no blocked round recorded. -/
def run_tool_loop (cfg : LoopCfg) (maxIterations : Nat) (messages : List Msg) :
    LoopResult :=
  runToolLoopAux cfg (max 1 maxIterations) 1 messages [] [] false

/-- Number of rounds the stop hook blocked. -/
def countBlocked (rounds : List RoundInfo) : Nat :=
  (rounds.filter (fun rd => rd.stopBlockReason.isSome)).length

/-! ## Theorems: stop-hook blocking (claim C5) -/

/-- `countBlocked` distributes over append. -/
theorem countBlocked_append (r1 r2 : List RoundInfo) :
    countBlocked (r1 ++ r2) = countBlocked r1 + countBlocked r2 := by
  simp [countBlocked, List.filter_append]

/-- `countBlocked` of a single round. -/
theorem countBlocked_singleton (rd : RoundInfo) :
    countBlocked [rd] = if rd.stopBlockReason.isSome then 1 else 0 := by
  cases h : rd.stopBlockReason.isSome <;> simp [countBlocked, List.filter, h]

/-- Configuration whose stop hook ignores the `stop_hook_active` flag and
always returns a reason, with every round tool-free (C5 counterexample). -/
def c5cfg : LoopCfg :=
  { oracle := fun _ => { content := "done", toolCalls := [] }
    stopHook := some fun _ _ => some "not yet" }

/-- C5 counterexample: with a stop hook that returns a reason regardless
of the `stop_hook_active` flag, a 3-iteration loop of tool-free rounds is
blocked in all 3 rounds — the loop itself never suppresses a second
block, contradicting the claim that the hook blocks at most once per
loop. -/
theorem stop_hook_once_ctrex :
    countBlocked (run_tool_loop c5cfg 3 []).rounds = 3 ∧
    1 < countBlocked (run_tool_loop c5cfg 3 []).rounds := by
  constructor
  · decide
  · decide

/-- The iteration loop adds at most one blocked round when the flag is
still clear, and none once it is set, provided the hook yields no reason
whenever the flag it receives is `true`. -/
theorem runToolLoopAux_blocked_bound (cfg : LoopCfg)
    (hhook : ∀ hook, cfg.stopHook = some hook → ∀ t, hook t true = none)
    (fuel : Nat) :
    ∀ (iteration : Nat) (msgs : List Msg) (rounds : List RoundInfo)
      (trace : List ToolEntry) (stopActive : Bool),
      countBlocked (runToolLoopAux cfg fuel iteration msgs rounds trace
          stopActive).rounds ≤
        countBlocked rounds + (if stopActive then 0 else 1) := by
  induction fuel with
  | zero =>
    intro i m r t a
    simp only [runToolLoopAux]
    split <;> omega
  | succ n ih =>
    intro i m r t a
    by_cases hemp : ((cfg.oracle i).toolCalls).isEmpty = true
    · cases hsh : cfg.stopHook with
      | none =>
        simp only [runToolLoopAux, hemp, hsh, if_true]
        rw [countBlocked_append, countBlocked_singleton]
        simp only [Option.isSome_none, Bool.false_eq_true, if_false]
        split <;> omega
      | some hook =>
        cases a with
        | true =>
          have hnone : hook (pyStrip (cfg.oracle i).content) true = none :=
            hhook hook hsh _
          simp only [runToolLoopAux, hemp, hsh, hnone, if_true]
          rw [countBlocked_append, countBlocked_singleton]
          simp only [Option.isSome_none, Bool.false_eq_true, if_false]
          omega
        | false =>
          cases hres : hook (pyStrip (cfg.oracle i).content) false with
          | none =>
            simp only [runToolLoopAux, hemp, hsh, hres, if_true]
            rw [countBlocked_append, countBlocked_singleton]
            simp only [Option.isSome_none, Bool.false_eq_true, if_false]
            omega
          | some reason =>
            by_cases hr : reason ≠ ""
            · simp only [runToolLoopAux, hemp, hsh, hres, if_true]
              rw [if_pos hr]
              refine le_trans (ih _ _ _ _ _) ?_
              rw [countBlocked_append, countBlocked_singleton]
              norm_num
            · simp only [runToolLoopAux, hemp, hsh, hres, if_true]
              rw [if_neg hr]
              rw [countBlocked_append, countBlocked_singleton]
              simp only [Option.isSome_none, Bool.false_eq_true, if_false]
              omega
    · simp only [runToolLoopAux, hemp, if_false, Bool.false_eq_true]
      refine le_trans (ih _ _ _ _ _) ?_
      rw [countBlocked_append, countBlocked_singleton]
      simp only [Option.isSome_none, Bool.false_eq_true, if_false]
      split <;> omega

/-- C5 amended: the loop does not itself enforce at-most-once blocking; it
records the first block in `stop_hook_active` and passes that flag to the
hook, which decides.  For every hook that returns no reason once the flag
it receives is `true`, every `run_tool_loop` run is blocked in at most one
round; a hook that ignores the flag can block every tool-free round. -/
theorem stop_hook_once_amended (cfg : LoopCfg) (maxIterations : Nat)
    (messages : List Msg)
    (hhook : ∀ hook, cfg.stopHook = some hook → ∀ t, hook t true = none) :
    countBlocked (run_tool_loop cfg maxIterations messages).rounds ≤ 1 := by
  have hb := runToolLoopAux_blocked_bound cfg hhook (max 1 maxIterations)
    1 messages [] [] false
  norm_num at hb
  unfold run_tool_loop
  have h0 : countBlocked ([] : List RoundInfo) = 0 := rfl
  omega

/-- Flag-respecting hook configuration for the C5 amended witness. -/
def c5cfg2 : LoopCfg :=
  { oracle := fun _ => { content := "done", toolCalls := [] }
    stopHook := some fun _ flag => if flag then none else some "wait" }

/-- Witness for C5 amended: a hook that respects the flag blocks at most
once across a 3-iteration loop. -/
theorem stop_hook_once_amended_witness :
    countBlocked (run_tool_loop c5cfg2 3 []).rounds ≤ 1 :=
  stop_hook_once_amended c5cfg2 3 []
    (by
      intro hook heq t
      simp only [c5cfg2] at heq
      cases Option.some.inj heq
      rfl)

/-! ## Turn Pipeline (src/orchestrator/pipeline.py, `Orchestrator.run_turn`,
lines 278-378, and src/orchestrator/runtime_flow/pipeline.py,
`StoryEngine.run_turn`, lines 101-394).

Each `self.step_X.run(self.adapter, payload)` call site is abstracted by a
`StageOracle` field giving that call's outcome: `some v` when the step
returns `v`, `none` when it exhausts its attempts and raises the fatal
`LLMError` (§4.5).  The orchestrator state is projected onto the fields
the claims mention (history, session summary, beats, story status, turn
counter): `run_turn`'s remaining mutations (`current_focus`,
`active_keys`, `discovered_keys`, `last_intent`, `last_debug`) touch only
fields outside this projection — `_apply_intent_to_focus`,
`_refresh_active_keys`, `_register_discovery` and `_resolve_focus_from_player`
read `self.story` and write only focus/active/discovered sets.  The
`_build_*_prompt` methods are pure readers of the state and are
abstracted as `PromptBuilders` parameters; the trace records each stage
call with its payload, mirroring the per-stage prompts stored in
`debug_data`. -/

/-- Parsed intent (`_parse_intent_step`). -/
structure Intent where
  action : String
  targets : List String
  refusals : List String
  deriving DecidableEq, Repr

/-- Parsed validation triple (the `step_validate` parser's
`(verdict, notes, advance)`). -/
structure Validation where
  verdict : String
  notes : String
  advance : Bool
  deriving DecidableEq, Repr

/-- Projected mutable state of an `Orchestrator`. -/
structure OrchState where
  history : List HistoryTurn
  summaryEvents : List String
  beats : BeatTracker
  story_status : String
  turn_index : Nat
  deriving DecidableEq, Repr

/-- `SessionSummary.add(label, text)` for the orchestrator's summary
(constructed without item/char ceilings, so `_trim` is a no-op). -/
def summaryAdd (events : List String) (label text : String) : List String :=
  if pyStrip text = "" then events
  else events ++ [label ++ ": " ++ pyStrip text]

/-- `Orchestrator._summary_text()`: `self.summary.text() or "No significant
actions yet."`. -/
def summaryText (events : List String) : String :=
  if pyJoin "\n" events = "" then "No significant actions yet."
  else pyJoin "\n" events

/-- Outcome of every step call site inside one `run_turn`.  `plan` and
`validate` can run twice (the conditional re-plan), hence two fields
each. -/
structure StageOracle where
  intentRes : Option Intent
  focusRes : Option (List String)
  statusRes : Option String
  planRes1 : Option String
  validateRes1 : Option Validation
  planRes2 : Option String
  validateRes2 : Option Validation
  narrateRes : Option String

/-- The `_build_*_prompt` methods, abstracted as pure functions of the
projected state and the stage inputs. -/
structure PromptBuilders where
  intentPrompt : OrchState → String → String
  focusPrompt : OrchState → String → Intent → String
  statusPrompt : OrchState → String
  planPrompt : OrchState → String → Intent → String
  validatePrompt : OrchState → String → String → Intent → String
  narratePrompt : OrchState → String → String → String → String → Intent → String

/-- One stage call: step name and the payload text passed to it. -/
abbrev StageCall := String × String

/-- What a completed turn returns (the dict of line 360-378, projected on
the claim-relevant entries). -/
structure TurnResult where
  plan : String
  verdict : String
  notes : String
  advance : Bool
  narrative : String
  deriving DecidableEq, Repr

/-- Result of `run_turn`: the state after the call (also on an abort —
Python leaves earlier mutations in place when an exception propagates),
the stage-call trace, and either the returned dict or the name of the
stage whose fatal `LLMError` aborted the turn. -/
structure TurnOut where
  state : OrchState
  trace : List StageCall
  result : Except String TurnResult

/-- Tail of `Orchestrator.run_turn` from the beat advance on (lines
334-357): advance the beat iff the final verdict approves with
`advance=yes`, narrate, then commit recap, narrator turn and turn
counter. -/
def finishTurn (pb : PromptBuilders) (o : StageOracle) (st2 : OrchState)
    (player_input : String) (intent : Intent) (trace : List StageCall)
    (plan : String) (v : Validation) : TurnOut :=
  let st3 : OrchState :=
    if v.advance && pyStartsWith (pyLower v.verdict) "approve" then
      { st2 with beats := st2.beats.advance }
    else st2
  let narratePrompt := pb.narratePrompt st3 player_input plan v.verdict v.notes intent
  let trace7 := trace ++ [("narrate", narratePrompt)]
  match o.narrateRes with
  | none => { state := st3, trace := trace7, result := .error "narrate" }
  | some narrative =>
    let st4 : OrchState := { st3 with
      summaryEvents := summaryAdd st3.summaryEvents "Recap" narrative
      history := st3.history ++ [{ role := "dm", payload := narrative }]
      turn_index := st3.turn_index + 1 }
    let tr : TurnResult :=
      { plan := plan, verdict := v.verdict, notes := v.notes,
        advance := v.advance, narrative := narrative }
    { state := st4, trace := trace7, result := .ok tr }

/-- `Orchestrator.run_turn(player_input)` (pipeline.py lines 278-378). -/
def Orchestrator.run_turn (pb : PromptBuilders) (o : StageOracle)
    (st : OrchState) (player_input : String) : TurnOut :=
  let intentPrompt := pb.intentPrompt st player_input
  let trace0 := [("intent", intentPrompt)]
  match o.intentRes with
  | none => { state := st, trace := trace0, result := .error "intent" }
  | some intent =>
    let focusPrompt := pb.focusPrompt st player_input intent
    let trace1 := trace0 ++ [("focus", focusPrompt)]
    let st1 : OrchState := { st with
      history := st.history ++ [{ role := "player", payload := player_input }]
      summaryEvents := summaryAdd st.summaryEvents "Player" player_input }
    let statusPrompt := pb.statusPrompt st1
    let trace2 := trace1 ++ [("status", statusPrompt)]
    let st2 : OrchState := { st1 with
      story_status :=
        match o.statusRes with
        | some status => status
        | none => summaryText st1.summaryEvents }
    let planPrompt := pb.planPrompt st2 player_input intent
    let trace3 := trace2 ++ [("plan", planPrompt)]
    match o.planRes1 with
    | none => { state := st2, trace := trace3, result := .error "plan" }
    | some plan1 =>
      let validatePrompt := pb.validatePrompt st2 player_input plan1 intent
      let trace4 := trace3 ++ [("validate", validatePrompt)]
      match o.validateRes1 with
      | none => { state := st2, trace := trace4, result := .error "validate" }
      | some v1 =>
        if pyStartsWith (pyLower v1.verdict) "revise" then
          let planPrompt2 := pb.planPrompt st2 player_input intent ++
            "\n\nValidator Notes: " ++ v1.notes
          let trace5 := trace4 ++ [("plan", planPrompt2)]
          match o.planRes2 with
          | none => { state := st2, trace := trace5, result := .error "plan" }
          | some plan2 =>
            let validatePrompt2 := pb.validatePrompt st2 player_input plan2 intent
            let trace6 := trace5 ++ [("validate", validatePrompt2)]
            match o.validateRes2 with
            | none => { state := st2, trace := trace6, result := .error "validate" }
            | some v2 => finishTurn pb o st2 player_input intent trace6 plan2 v2
        else finishTurn pb o st2 player_input intent trace4 plan1 v1

/-! ### StoryEngine.run_turn (runtime_flow/pipeline.py) -/

/-- Projected mutable state of a `StoryEngine` (history, summary, beats,
turn counter; `game_state`, `current_focus` and `active_keys` are the
omitted focus/world fields no claim mentions). -/
structure SEState where
  history : List HistoryTurn
  summaryEvents : List String
  beats : BeatTracker
  turn_index : Nat
  deriving DecidableEq, Repr

/-- Stage outcomes of one `StoryEngine.run_turn`: the intent step, the
plan step, the validate tool sub-loop's final content (whose
`request_with_tools` calls can raise `LLMError` after retries), and the
narrate step. -/
structure SEOracle where
  intentRes : Option Intent
  planRes : Option String
  validateRes : Option String
  narrateRes : Option String

/-- Modelled from the spec: `runtime_flow/conversation_log.py` (the
`History` class `StoryEngine` instantiates) is not under src/; per §3,
"History — an ordered list of (role, payload) turns", and §4.6 commit:
"append player input and narration text to History" — so
`add_player_turn` then `add_dm_turn` append one (role, payload) turn
each. -/
def seCommitHistory (turns : List HistoryTurn) (player_input narrative : String) :
    List HistoryTurn :=
  turns ++ [{ role := "player", payload := player_input },
    { role := "dm", payload := narrative }]

/-- `dict.get(key, default)` over a decoded section map. -/
def sectionsGet (m : Sections) (k : String) (default : String) : String :=
  match m.find? (fun p => p.1 = k) with
  | some p => p.2
  | none => default

/-- The validate step's parser (runtime_flow/step_registry.py is absent
from src/, but its llm_interaction twin registry.py line 60 gives the
lambda: verdict defaults to "approve", notes to "", advance is
`.lower().startswith("y")`), applied to the sections parsed from the tool
sub-loop's final content (runtime_flow/pipeline.py lines 260-262). -/
def seValidationParse (content : String) : Validation :=
  let sections := parse_sections_rt content ["thoughts", "verdict", "notes", "advance"]
  { verdict := sectionsGet sections "verdict" "approve"
    notes := sectionsGet sections "notes" ""
    advance := pyStartsWith (pyLower (sectionsGet sections "advance" "")) "y" }

/-- The prompt constructions `StoryEngine.run_turn` feeds each stage
(`build_intent_prompt` over the rendered history and input, and
`build_plan_prompt` / `build_validate_prompt` / `build_narrate_prompt`
over the `PromptState` built by `_make_state`), abstracted as pure
functions of the projected state and the stage inputs.  The validate
entry records the sub-loop's initial prompt (runtime_flow/pipeline.py
line 186); the narrate prompt additionally carries the parsed verdict and
notes (line 355). -/
structure SEPromptBuilders where
  intentPrompt : SEState → String → String
  planPrompt : SEState → String → Intent → String
  validatePrompt : SEState → String → Intent → String → String
  narratePrompt : SEState → String → Intent → String → Validation → String

/-- Result of one `StoryEngine.run_turn`: the state after the call, the
stage-call trace (one entry per stage phase, in execution order), and
either the returned narration/validation or the name of the stage whose
fatal `LLMError` aborted the turn. -/
structure SETurnOut where
  state : SEState
  trace : List StageCall
  result : Except String (String × Validation)

/-- `StoryEngine.run_turn(player_input)` (runtime_flow/pipeline.py lines
101-394), projected on the modelled fields: intent, plan (run exactly
once, line 174), the validate tool sub-loop (lines 186-274 — its final
content is parsed into the verdict triple), narrate, then the commit
block (lines 374-377).  There is no conditional re-plan: a revise verdict
only skips the action-execution block (line 289), which — like the
implicit-move block — mutates only `game_state` / `current_focus` /
`active_keys`; `run_turn` never calls `beats.advance`. -/
def StoryEngine.run_turn (pb : SEPromptBuilders) (o : SEOracle) (st : SEState)
    (player_input : String) : SETurnOut :=
  let trace0 := [("intent", pb.intentPrompt st player_input)]
  match o.intentRes with
  | none => { state := st, trace := trace0, result := .error "intent" }
  | some intent =>
    let trace1 := trace0 ++ [("plan", pb.planPrompt st player_input intent)]
    match o.planRes with
    | none => { state := st, trace := trace1, result := .error "plan" }
    | some plan =>
      let trace2 := trace1 ++
        [("validate", pb.validatePrompt st player_input intent plan)]
      match o.validateRes with
      | none => { state := st, trace := trace2, result := .error "validate" }
      | some content =>
        let v := seValidationParse content
        let trace3 := trace2 ++
          [("narrate", pb.narratePrompt st player_input intent plan v)]
        match o.narrateRes with
        | none => { state := st, trace := trace3, result := .error "narrate" }
        | some narrative =>
          let st2 : SEState := { st with
            history := seCommitHistory st.history player_input narrative
            summaryEvents := summaryAdd st.summaryEvents "Recap" narrative
            turn_index := st.turn_index + 1 }
          { state := st2, trace := trace3, result := .ok (narrative, v) }

/-! ## Theorems: fatal stage errors and turn aborts (claim C1) -/

/-- Prompt builders used by the concrete turn fixtures. -/
def pb0 : PromptBuilders :=
  { intentPrompt := fun _ _ => ""
    focusPrompt := fun _ _ _ => ""
    statusPrompt := fun _ => ""
    planPrompt := fun _ _ _ => ""
    validatePrompt := fun _ _ _ _ => ""
    narratePrompt := fun _ _ _ _ _ _ => "" }

/-- StoryEngine prompt builders used by the concrete turn fixtures. -/
def sepb0 : SEPromptBuilders :=
  { intentPrompt := fun _ _ => ""
    planPrompt := fun _ _ _ => ""
    validatePrompt := fun _ _ _ _ => ""
    narratePrompt := fun _ _ _ _ _ => "" }

/-- Turn in which the plan stage exhausts its attempts (C1 counterexample). -/
def c1oracle : StageOracle :=
  { intentRes := some { action := "move", targets := [], refusals := [] }
    focusRes := none
    statusRes := none
    planRes1 := none
    validateRes1 := none
    planRes2 := none
    validateRes2 := none
    narrateRes := none }

/-- Starting state for the C1 counterexample. -/
def c1st : OrchState :=
  { history := []
    summaryEvents := []
    beats := { beats := ["b1", "b2"] }
    story_status := ""
    turn_index := 0 }

/-- C1 counterexample: in `Orchestrator.run_turn` the player turn is
recorded (line 303) before the Plan stage runs, so a turn whose Plan stage
raises the fatal stage error aborts with the player turn already appended
to History — the History list is not as it was before the turn. -/
theorem turn_abort_ctrex :
    (Orchestrator.run_turn pb0 c1oracle c1st "go north").result = Except.error "plan"
    ∧ (Orchestrator.run_turn pb0 c1oracle c1st "go north").state.history ≠
        c1st.history
    ∧ (Orchestrator.run_turn pb0 c1oracle c1st "go north").state.history =
        [{ role := "player", payload := "go north" }] := by
  refine ⟨rfl, ?_, rfl⟩
  decide

/-- On an aborted `finishTurn` the failing stage is narrate, the history
and turn counter are unchanged from the post-validation state, and the
beat has advanced exactly when the final validation approved with
`advance=yes`. -/
theorem finishTurn_abort (pb : PromptBuilders) (o : StageOracle) (st2 : OrchState)
    (input : String) (intent : Intent) (trace : List StageCall) (plan : String)
    (v : Validation) (e : String)
    (h : (finishTurn pb o st2 input intent trace plan v).result = Except.error e) :
    e = "narrate"
    ∧ (finishTurn pb o st2 input intent trace plan v).state.history = st2.history
    ∧ (finishTurn pb o st2 input intent trace plan v).state.turn_index = st2.turn_index
    ∧ ((finishTurn pb o st2 input intent trace plan v).state.beats = st2.beats ∨
        (finishTurn pb o st2 input intent trace plan v).state.beats = st2.beats.advance) := by
  cases hN : o.narrateRes with
  | some narrative =>
    simp only [finishTurn, hN] at h
    exact Except.noConfusion h
  | none =>
    simp only [finishTurn, hN] at h ⊢
    refine ⟨(Except.error.inj h).symm, ?_, ?_, ?_⟩
    · split <;> rfl
    · split <;> rfl
    · split
      · exact Or.inr rfl
      · exact Or.inl rfl

/-- C1 amended: when a stage raises a fatal stage error, the turn aborts
with no narrator turn committed and the turn counter unchanged.  In
`StoryEngine.run_turn` the commit happens only after Narrate, so the
projected state (history, summary, beats, turn counter) is exactly as
before the turn.  In `Orchestrator.run_turn`, an Intent-stage failure also
leaves the state exactly as before; but any later fatal failure happens
after the player turn was recorded (line 303), so History already holds
the appended player turn; and the beat index is unchanged except when the
Narrate stage fails after an approve-with-advance validation, in which
case the beat has already advanced by one. -/
theorem turn_abort_amended (pb : PromptBuilders) (o : StageOracle)
    (st : OrchState) (input : String) (e : String) (sepb : SEPromptBuilders)
    (seo : SEOracle) (sest : SEState) (seInput : String) (se_e : String) :
    ((Orchestrator.run_turn pb o st input).result = Except.error e →
      (Orchestrator.run_turn pb o st input).state.turn_index = st.turn_index
      ∧ ((Orchestrator.run_turn pb o st input).state.history = st.history ∨
          (Orchestrator.run_turn pb o st input).state.history =
            st.history ++ [{ role := "player", payload := input }])
      ∧ ((Orchestrator.run_turn pb o st input).state.beats = st.beats ∨
          (e = "narrate" ∧ (Orchestrator.run_turn pb o st input).state.beats =
            st.beats.advance))
      ∧ (e = "intent" → (Orchestrator.run_turn pb o st input).state = st))
    ∧ ((StoryEngine.run_turn sepb seo sest seInput).result = Except.error se_e →
        (StoryEngine.run_turn sepb seo sest seInput).state = sest) := by
  constructor
  · intro h
    cases hI : o.intentRes with
    | none =>
      simp only [Orchestrator.run_turn, hI] at h ⊢
      exact ⟨trivial, Or.inl trivial, Or.inl trivial, fun _ => trivial⟩
    | some intent =>
      cases hP1 : o.planRes1 with
      | none =>
        simp only [Orchestrator.run_turn, hI, hP1] at h ⊢
        refine ⟨trivial, Or.inr trivial, Or.inl trivial, ?_⟩
        intro he
        rw [he] at h
        injection h with h2
        exact absurd h2 (by decide)
      | some plan1 =>
        cases hV1 : o.validateRes1 with
        | none =>
          simp only [Orchestrator.run_turn, hI, hP1, hV1] at h ⊢
          refine ⟨trivial, Or.inr trivial, Or.inl trivial, ?_⟩
          intro he
          rw [he] at h
          injection h with h2
          exact absurd h2 (by decide)
        | some v1 =>
          cases hrev : pyStartsWith (pyLower v1.verdict) "revise" with
          | false =>
            simp only [Orchestrator.run_turn, hI, hP1, hV1, hrev,
              Bool.false_eq_true, if_false] at h ⊢
            obtain ⟨he, hh, ht, hb⟩ := finishTurn_abort pb o _ input intent _ plan1 v1 e h
            refine ⟨ht, Or.inr hh, ?_, ?_⟩
            · rcases hb with hb | hb
              · exact Or.inl hb
              · exact Or.inr ⟨he, hb⟩
            · intro hi
              rw [hi] at he
              exact absurd he (by decide)
          | true =>
            cases hP2 : o.planRes2 with
            | none =>
              simp only [Orchestrator.run_turn, hI, hP1, hV1, hrev,
                eq_self_iff_true, if_true, hP2] at h ⊢
              refine ⟨trivial, Or.inr trivial, Or.inl trivial, ?_⟩
              intro he
              rw [he] at h
              injection h with h2
              exact absurd h2 (by decide)
            | some plan2 =>
              cases hV2 : o.validateRes2 with
              | none =>
                simp only [Orchestrator.run_turn, hI, hP1, hV1, hrev,
                  eq_self_iff_true, if_true, hP2, hV2] at h ⊢
                refine ⟨trivial, Or.inr trivial, Or.inl trivial, ?_⟩
                intro he
                rw [he] at h
                injection h with h2
                exact absurd h2 (by decide)
              | some v2 =>
                simp only [Orchestrator.run_turn, hI, hP1, hV1, hrev,
                  eq_self_iff_true, if_true, hP2, hV2] at h ⊢
                obtain ⟨he, hh, ht, hb⟩ :=
                  finishTurn_abort pb o _ input intent _ plan2 v2 e h
                refine ⟨ht, Or.inr hh, ?_, ?_⟩
                · rcases hb with hb | hb
                  · exact Or.inl hb
                  · exact Or.inr ⟨he, hb⟩
                · intro hi
                  rw [hi] at he
                  exact absurd he (by decide)
  · intro h
    cases hI : seo.intentRes with
    | none => simp only [StoryEngine.run_turn, hI]
    | some intent =>
      cases hP : seo.planRes with
      | none => simp only [StoryEngine.run_turn, hI, hP]
      | some plan =>
        cases hV : seo.validateRes with
        | none => simp only [StoryEngine.run_turn, hI, hP, hV]
        | some content =>
          cases hN : seo.narrateRes with
          | none => simp only [StoryEngine.run_turn, hI, hP, hV, hN]
          | some narrative =>
            simp only [StoryEngine.run_turn, hI, hP, hV, hN] at h
            exact Except.noConfusion h

/-- StoryEngine oracle whose intent step fails (C1 amended witness). -/
def c1seOracle : SEOracle :=
  { intentRes := none, planRes := none, validateRes := none, narrateRes := none }

/-- StoryEngine starting state (C1 amended witness). -/
def c1sest : SEState :=
  { history := [], summaryEvents := [], beats := { beats := ["b1"] }, turn_index := 0 }

/-- Witness for C1 amended at the concrete aborting turns. -/
theorem turn_abort_amended_witness :
    ((Orchestrator.run_turn pb0 c1oracle c1st "go north").state.turn_index =
        c1st.turn_index
      ∧ ((Orchestrator.run_turn pb0 c1oracle c1st "go north").state.history =
            c1st.history ∨
          (Orchestrator.run_turn pb0 c1oracle c1st "go north").state.history =
            c1st.history ++ [{ role := "player", payload := "go north" }])
      ∧ ((Orchestrator.run_turn pb0 c1oracle c1st "go north").state.beats =
            c1st.beats ∨
          ("plan" = "narrate" ∧
            (Orchestrator.run_turn pb0 c1oracle c1st "go north").state.beats =
              c1st.beats.advance))
      ∧ ("plan" = "intent" →
          (Orchestrator.run_turn pb0 c1oracle c1st "go north").state = c1st))
    ∧ (StoryEngine.run_turn sepb0 c1seOracle c1sest "hello").state = c1sest :=
  ⟨(turn_abort_amended pb0 c1oracle c1st "go north" "plan" sepb0
      c1seOracle c1sest "hello" "intent").1 rfl,
   (turn_abort_amended pb0 c1oracle c1st "go north" "plan" sepb0
      c1seOracle c1sest "hello" "intent").2 rfl⟩

/-! ## Theorems: beat advance gating (claim C2) -/

/-- Gating behaviour of the turn tail: with the final validation in hand,
the beat index moves up by one exactly for an approve-with-advance
verdict, capped at the last beat. -/
theorem finishTurn_gating (pb : PromptBuilders) (o : StageOracle) (st2 : OrchState)
    (input : String) (intent : Intent) (trace : List StageCall) (plan : String)
    (v : Validation) (tr : TurnResult)
    (h : (finishTurn pb o st2 input intent trace plan v).result = Except.ok tr)
    (hbound : st2.beats.index < st2.beats.beats.length) :
    (tr.verdict = "approve" → tr.advance = true →
      (finishTurn pb o st2 input intent trace plan v).state.beats.index =
        if st2.beats.index = st2.beats.beats.length - 1 then st2.beats.index
        else st2.beats.index + 1)
    ∧ (tr.verdict = "revise" →
        (finishTurn pb o st2 input intent trace plan v).state.beats.index =
          st2.beats.index) := by
  cases hN : o.narrateRes with
  | none =>
    simp only [finishTurn, hN] at h
    exact Except.noConfusion h
  | some narrative =>
    simp only [finishTurn, hN] at h ⊢
    injection h with h2
    constructor
    · intro hva hadv
      rw [← h2] at hva hadv
      simp only at hva hadv
      rw [hva, hadv]
      rw [if_pos (show (true && pyStartsWith (pyLower "approve") "approve") = true
        by decide)]
      show (st2.beats.advance).index = _
      unfold BeatTracker.advance
      split
      · rename_i hlt
        rw [if_neg (by omega)]
      · rename_i hge
        rw [if_pos (by omega)]
    · intro hvr
      rw [← h2] at hvr
      simp only at hvr
      rw [hvr]
      rw [if_neg (show ¬ ((v.advance && pyStartsWith (pyLower "revise") "approve") = true)
        by simp [pyStartsWith, pyLower])]

/-- C2: for every completed turn whose final Validate result is
`verdict=approve, advance=yes`, the beat index increases by exactly 1
unless it is already at the last beat, where it stays put; for every
completed turn whose final verdict is `revise`, the index is unchanged
even when `advance=yes`.  (`hbound` is the reachable-state invariant: the
index of a tracker over a non-empty beat list stays below `len(beats)`.) -/
theorem beat_advance_gating (pb : PromptBuilders) (o : StageOracle) (st : OrchState)
    (input : String) (tr : TurnResult)
    (hok : (Orchestrator.run_turn pb o st input).result = Except.ok tr)
    (hbound : st.beats.index < st.beats.beats.length) :
    (tr.verdict = "approve" → tr.advance = true →
      (Orchestrator.run_turn pb o st input).state.beats.index =
        if st.beats.index = st.beats.beats.length - 1 then st.beats.index
        else st.beats.index + 1)
    ∧ (tr.verdict = "revise" →
        (Orchestrator.run_turn pb o st input).state.beats.index =
          st.beats.index) := by
  cases hI : o.intentRes with
  | none =>
    simp only [Orchestrator.run_turn, hI] at hok
    exact Except.noConfusion hok
  | some intent =>
    cases hP1 : o.planRes1 with
    | none =>
      simp only [Orchestrator.run_turn, hI, hP1] at hok
      exact Except.noConfusion hok
    | some plan1 =>
      cases hV1 : o.validateRes1 with
      | none =>
        simp only [Orchestrator.run_turn, hI, hP1, hV1] at hok
        exact Except.noConfusion hok
      | some v1 =>
        cases hrev : pyStartsWith (pyLower v1.verdict) "revise" with
        | false =>
          simp only [Orchestrator.run_turn, hI, hP1, hV1, hrev,
            Bool.false_eq_true, if_false] at hok ⊢
          exact finishTurn_gating pb o _ input intent _ plan1 v1 tr hok hbound
        | true =>
          cases hP2 : o.planRes2 with
          | none =>
            simp only [Orchestrator.run_turn, hI, hP1, hV1, hrev,
              eq_self_iff_true, if_true, hP2] at hok
            exact Except.noConfusion hok
          | some plan2 =>
            cases hV2 : o.validateRes2 with
            | none =>
              simp only [Orchestrator.run_turn, hI, hP1, hV1, hrev,
                eq_self_iff_true, if_true, hP2, hV2] at hok
              exact Except.noConfusion hok
            | some v2 =>
              simp only [Orchestrator.run_turn, hI, hP1, hV1, hrev,
                eq_self_iff_true, if_true, hP2, hV2] at hok ⊢
              exact finishTurn_gating pb o _ input intent _ plan2 v2 tr hok hbound

/-- Completed approve-with-advance turn (C2 witness). -/
def c2oracle : StageOracle :=
  { intentRes := some { action := "move", targets := [], refusals := [] }
    focusRes := none
    statusRes := none
    planRes1 := some "go east"
    validateRes1 := some { verdict := "approve", notes := "", advance := true }
    planRes2 := none
    validateRes2 := none
    narrateRes := some "You go east." }

/-- Starting state for the C2 witness: beat 0 of 2. -/
def c2st : OrchState :=
  { history := []
    summaryEvents := []
    beats := { beats := ["b1", "b2"] }
    story_status := ""
    turn_index := 0 }

/-- The dict the C2 witness turn returns. -/
def c2tr : TurnResult :=
  { plan := "go east", verdict := "approve", notes := "", advance := true,
    narrative := "You go east." }

/-- Witness for C2 at a completed approve-with-advance turn. -/
theorem beat_advance_gating_witness :
    (Orchestrator.run_turn pb0 c2oracle c2st "east").result = Except.ok c2tr
    ∧ c2st.beats.index < c2st.beats.beats.length
    ∧ ((c2tr.verdict = "approve" → c2tr.advance = true →
        (Orchestrator.run_turn pb0 c2oracle c2st "east").state.beats.index =
          if c2st.beats.index = c2st.beats.beats.length - 1 then c2st.beats.index
          else c2st.beats.index + 1)
      ∧ (c2tr.verdict = "revise" →
          (Orchestrator.run_turn pb0 c2oracle c2st "east").state.beats.index =
            c2st.beats.index)) :=
  ⟨rfl, by decide, beat_advance_gating pb0 c2oracle c2st "east" c2tr rfl (by decide)⟩

/-! ## Theorems: single re-plan round (claim C6) -/

/-- The final content the C6 counterexample's validate tool sub-loop
returns. -/
def sec6content : String :=
  "Verdict: revise\nNotes: no northern exit\nAdvance: no"

/-- Completed StoryEngine turn whose validate phase says revise (C6
counterexample and witness). -/
def sec6Oracle : SEOracle :=
  { intentRes := some { action := "move", targets := [], refusals := [] }
    planRes := some "go north"
    validateRes := some sec6content
    narrateRes := some "You pause at the wall." }

/-- Starting state for the C6 counterexample and witness. -/
def sec6st : SEState :=
  { history := []
    summaryEvents := []
    beats := { beats := ["b1", "b2"] }
    turn_index := 0 }

/-- C6 counterexample: a completed `StoryEngine.run_turn` turn whose (one
and only) Validate result has verdict `revise` runs Plan exactly once and
Validate exactly once — the claimed re-plan round (a second Plan call with
the notes appended, and a second Validate on the new plan) never happens
in the runtime_flow pipeline, which the claim also cites. -/
theorem validation_retry_once_ctrex :
    (seValidationParse sec6content).verdict = "revise"
    ∧ (StoryEngine.run_turn sepb0 sec6Oracle sec6st "go north").result =
        Except.ok ("You pause at the wall.", seValidationParse sec6content)
    ∧ ((StoryEngine.run_turn sepb0 sec6Oracle sec6st "go north").trace.filter
        (fun c => c.1 = "plan")).length = 1
    ∧ ((StoryEngine.run_turn sepb0 sec6Oracle sec6st "go north").trace.filter
        (fun c => c.1 = "validate")).length = 1 := by
  refine ⟨by decide, rfl, by decide, by decide⟩

/-- C6 amended: in `Orchestrator.run_turn`, every completed turn whose
first Validate result has verdict `revise` runs Plan exactly twice and
Validate exactly twice: the second plan prompt is the first one with the
validator's notes appended, the second validate prompt is built over the
same prompt state but on the new plan, and exactly one Narrate call
follows — no third Plan or Validate round occurs, whatever the second
verdict is.  `StoryEngine.run_turn`, by contrast, never re-runs Plan: it
issues at most one Plan call per turn (a revise verdict only skips action
execution). -/
theorem validation_retry_once_amended (pb : PromptBuilders) (o : StageOracle)
    (st : OrchState) (input : String) (tr : TurnResult) (v1 : Validation)
    (sepb : SEPromptBuilders) (seo : SEOracle) (sest : SEState) (seInput : String)
    (hok : (Orchestrator.run_turn pb o st input).result = Except.ok tr)
    (hv1 : o.validateRes1 = some v1)
    (hrev : v1.verdict = "revise") :
    (∃ intent plan1 plan2 st2,
      o.intentRes = some intent
      ∧ o.planRes1 = some plan1
      ∧ o.planRes2 = some plan2
      ∧ (Orchestrator.run_turn pb o st input).trace.filter
          (fun c => c.1 = "plan") =
          [("plan", pb.planPrompt st2 input intent),
           ("plan", pb.planPrompt st2 input intent ++ "\n\nValidator Notes: "
             ++ v1.notes)]
      ∧ (Orchestrator.run_turn pb o st input).trace.filter
          (fun c => c.1 = "validate") =
          [("validate", pb.validatePrompt st2 input plan1 intent),
           ("validate", pb.validatePrompt st2 input plan2 intent)]
      ∧ ((Orchestrator.run_turn pb o st input).trace.filter
          (fun c => c.1 = "narrate")).length = 1)
    ∧ ((StoryEngine.run_turn sepb seo sest seInput).trace.filter
        (fun c => c.1 = "plan")).length ≤ 1 := by
  constructor
  · have hc : pyStartsWith (pyLower v1.verdict) "revise" = true := by
      rw [hrev]
      decide
    obtain ⟨oi, ofo, os, op1, ov1x, op2, ov2, onr⟩ := o
    dsimp only at hv1
    subst hv1
    cases oi with
    | none => exact Except.noConfusion hok
    | some intent =>
      cases op1 with
      | none => exact Except.noConfusion hok
      | some plan1 =>
        simp only [Orchestrator.run_turn, hc, eq_self_iff_true, if_true] at hok ⊢
        cases op2 with
        | none => exact Except.noConfusion hok
        | some plan2 =>
          cases ov2 with
          | none => exact Except.noConfusion hok
          | some v2 =>
            cases onr with
            | none =>
              simp only [finishTurn] at hok
              exact Except.noConfusion hok
            | some narrative =>
              clear hok
              refine ⟨intent, plan1, plan2,
                { history := st.history ++ [{ role := "player", payload := input }]
                  summaryEvents := summaryAdd st.summaryEvents "Player" input
                  beats := st.beats
                  story_status :=
                    match os with
                    | some status => status
                    | none => summaryText (summaryAdd st.summaryEvents "Player" input)
                  turn_index := st.turn_index }, rfl, rfl, rfl, ?_, ?_, ?_⟩
              · simp [finishTurn, List.filter]
              · simp [finishTurn, List.filter]
              · simp [finishTurn, List.filter]
  · obtain ⟨oi, op, ov, onr⟩ := seo
    cases oi <;> cases op <;> cases ov <;> cases onr <;>
      simp [StoryEngine.run_turn, List.filter]

/-- First validation result of the C6 witness turn. -/
def c6v1 : Validation :=
  { verdict := "revise", notes := "no northern exit", advance := false }

/-- Completed turn whose first and second Validate both say revise (C6
witness). -/
def c6oracle : StageOracle :=
  { intentRes := some { action := "move", targets := [], refusals := [] }
    focusRes := none
    statusRes := none
    planRes1 := some "go north"
    validateRes1 := some c6v1
    planRes2 := some "stay put"
    validateRes2 := some { verdict := "revise", notes := "still bad", advance := true }
    narrateRes := some "You hesitate." }

/-- Starting state for the C6 witness. -/
def c6st : OrchState :=
  { history := []
    summaryEvents := []
    beats := { beats := ["b1", "b2"] }
    story_status := ""
    turn_index := 0 }

/-- The dict the C6 witness turn returns. -/
def c6tr : TurnResult :=
  { plan := "stay put", verdict := "revise", notes := "still bad", advance := true,
    narrative := "You hesitate." }

/-- Witness for C6 amended at a concrete revise-then-revise Orchestrator
turn and a concrete completed StoryEngine turn. -/
theorem validation_retry_once_amended_witness :
    (∃ intent plan1 plan2 st2,
      c6oracle.intentRes = some intent
      ∧ c6oracle.planRes1 = some plan1
      ∧ c6oracle.planRes2 = some plan2
      ∧ (Orchestrator.run_turn pb0 c6oracle c6st "go north").trace.filter
          (fun c => c.1 = "plan") =
          [("plan", pb0.planPrompt st2 "go north" intent),
           ("plan", pb0.planPrompt st2 "go north" intent ++ "\n\nValidator Notes: "
             ++ c6v1.notes)]
      ∧ (Orchestrator.run_turn pb0 c6oracle c6st "go north").trace.filter
          (fun c => c.1 = "validate") =
          [("validate", pb0.validatePrompt st2 "go north" plan1 intent),
           ("validate", pb0.validatePrompt st2 "go north" plan2 intent)]
      ∧ ((Orchestrator.run_turn pb0 c6oracle c6st "go north").trace.filter
          (fun c => c.1 = "narrate")).length = 1)
    ∧ ((StoryEngine.run_turn sepb0 sec6Oracle sec6st "go").trace.filter
        (fun c => c.1 = "plan")).length ≤ 1 :=
  validation_retry_once_amended pb0 c6oracle c6st "go north" c6tr c6v1
    sepb0 sec6Oracle sec6st "go" rfl rfl rfl

end DMC
